import Mathlib

/-!
# Verification of the DEST rectangle-generation tool and training-data manager

A shallow embedding, in Lean 4, of the parts of the Deformable Shape
Tracking (DEST) repository relevant to rectangle generation for tracker
training and to training-sample creation:

* `dest_generate_rects_viola_jones.cpp` — the tool that produces one
  bounding rectangle per database image, either from an OpenCV face
  detector candidate (when its landmark-overlap ratio with the ground
  truth is acceptable) or from the tight shape bounds (fallback).
* `training_data.h` — the `TrainingData` interface: sample-generation
  strategies and train/validation partitioning (defaults come from the
  header; bodies are modelled from the specification where the
  implementation file is not part of the sources considered here).

Floating-point values of the C++ code are modelled as exact rationals
(`ℚ`); Eigen column matrices (shapes, rectangles) are modelled as lists
and four-corner structures of rational pairs.
-/

namespace Dest

/-- A 2D point (an Eigen `Vector2f`), modelled as a pair of rationals. -/
abbrev Vec2 : Type := ℚ × ℚ

/-- A shape (`dest::core::Shape`): a `2 × L` matrix whose columns are the
landmarks. Modelled as the list of its columns. -/
abbrev Shape : Type := List Vec2

/-- A rectangle (`dest::core::Rect`): a `2 × 4` matrix of corner points.
Column 0 is the minimum corner and column 3 the maximum corner. -/
structure Rect where
  c0 : Vec2
  c1 : Vec2
  c2 : Vec2
  c3 : Vec2
deriving DecidableEq, Repr, Inhabited

/-- The per-landmark test of `ratioRectShapeOverlap`'s loop body: with
`a = s.col(i) - minC` and `b = s.col(i) - maxC`, the landmark counts iff
`(a.array() >= 0).all() && (b.array() <= 0).all()`. -/
def landmarkCovered (minC maxC p : Vec2) : Bool :=
  decide (0 ≤ p.1 - minC.1) && decide (0 ≤ p.2 - minC.2) &&
    (decide (p.1 - maxC.1 ≤ 0) && decide (p.2 - maxC.2 ≤ 0))

/-- `ratioRectShapeOverlap(r, s)` from `dest_generate_rects_viola_jones.cpp`:
`minC = r.col(0)`, `maxC = r.col(3)`; count the landmarks of `s` lying in
the closed box and divide by the number of landmarks. -/
def ratioRectShapeOverlap (r : Rect) (s : Shape) : ℚ :=
  ((s.countP (landmarkCovered r.c0 r.c3) : ℚ)) / ((s.length : ℚ))

/-- The best-candidate selection loop of `main` (lines 127–136): running
state is `bestId` (`size_t` max modelled as `none`) and `bestOverlap`
(starting at `0`); a candidate replaces the running best exactly when its
overlap is strictly greater. -/
def selectBestGo (s : Shape) : List Rect → ℕ → Option ℕ → ℚ → Option ℕ × ℚ
  | [], _, bestId, bestOverlap => (bestId, bestOverlap)
  | f :: rest, j, bestId, bestOverlap =>
    let o := ratioRectShapeOverlap f s
    if bestOverlap < o then selectBestGo s rest (j + 1) (some j) o
    else selectBestGo s rest (j + 1) bestId bestOverlap

/-- Best detector candidate for a shape: the loop started on `bestOverlap = 0`
and `bestId = std::numeric_limits<size_t>::max()` (modelled `none`). -/
def selectBest (faces : List Rect) (s : Shape) : Option ℕ × ℚ :=
  selectBestGo s faces 0 none 0

/-- `scaleToCV = 1.25f`: scale between tight bounds and detector rectangles. -/
def scaleToCV : ℚ := 5 / 4

/-- `txToCV = -0.01f`: x translation normalized by image width. -/
def txToCV : ℚ := -1 / 100

/-- `tyToCV = -0.05f`: y translation normalized by image height. -/
def tyToCV : ℚ := -5 / 100

/-- The overlap acceptance threshold `0.3f` of `main`. -/
def acceptThreshold : ℚ := 3 / 10

/-- Dimensions of an image: `cols()` is the width and `rows()` the height. -/
structure ImageDims where
  cols : ℚ
  rows : ℚ
deriving DecidableEq, Repr, Inhabited

/-- The affine map `t = Translation2f(txToCV * W, tyToCV * H) * Scaling(scaleToCV)`
applied to one point: scaling by `scaleToCV` followed by the translation. -/
def applyCVTransform (img : ImageDims) (p : Vec2) : Vec2 :=
  (scaleToCV * p.1 + txToCV * img.cols, scaleToCV * p.2 + tyToCV * img.rows)

/-- Apply a point map to each of the four corners of a rectangle. -/
def mapRect (f : Vec2 → Vec2) (r : Rect) : Rect :=
  ⟨f r.c0, f r.c1, f r.c2, f r.c3⟩

/-- Componentwise division of a rectangle by a scalar (`r / scalings[i]`). -/
def divRect (r : Rect) (s : ℚ) : Rect :=
  mapRect (fun p => (p.1 / s, p.2 / s)) r

/-- Modelled from the spec: `dest::core::shapeBounds` (its implementation
file is not among the sources here) derives "a bounding rectangle per
shape", the tight axis-aligned bounds of the landmarks, with corner
column 0 the minimum corner and corner column 3 the maximum corner. -/
def shapeBounds (s : Shape) : Rect :=
  match s with
  | [] => ⟨(0, 0), (0, 0), (0, 0), (0, 0)⟩
  | p :: rest =>
    let mn := rest.foldl (fun a q => (min a.1 q.1, min a.2 q.2)) p
    let mx := rest.foldl (fun a q => (max a.1 q.1, max a.2 q.2)) p
    ⟨mn, (mx.1, mn.2), (mn.1, mx.2), mx⟩

/-- Placeholder rectangle used only to type `List.getD`; every indexed
access is proved in bounds. -/
def dummyRect : Rect := ⟨(0, 0), (0, 0), (0, 0), (0, 0)⟩

/-- The body of `main`'s per-image loop (lines 117–160) after the detector
candidates `faces` have been gathered: select the best candidate; fall
back to the (optionally CV-matched) tight shape bounds when no candidate
was selected or the best overlap is below the threshold; divide by the
image's scaling factor. The boolean is the detection-success flag
(`countDetectionSuccess` is incremented exactly when it is `true`). -/
def processImage (matchCV : Bool) (img : ImageDims) (shape : Shape)
    (faces : List Rect) (scaling : ℚ) : Rect × Bool :=
  let best := selectBest faces shape
  if best.1 = none ∨ best.2 < acceptThreshold then
    let r := shapeBounds shape
    let r2 := if matchCV then mapRect (applyCVTransform img) r else r
    (divRect r2 scaling, false)
  else
    match best.1 with
    | some j => (divRect (faces.getD j dummyRect) scaling, true)
    | none => (dummyRect, true)

/-- One database image's inputs to the per-image loop: image dimensions,
ground-truth shape, the candidate list produced by each detector, and
the scaling factor applied on database loading. -/
structure ImageEntry where
  img : ImageDims
  shape : Shape
  detections : List (List Rect)
  scaling : ℚ
deriving DecidableEq, Repr, Inhabited

/-- Concatenation of all detectors' candidates in detector order
(lines 119–124: `faces.insert(faces.end(), rects.begin(), rects.end())`). -/
def facesOf (e : ImageEntry) : List Rect :=
  e.detections.flatten

/-- The per-image computation on one database entry. -/
def processEntry (matchCV : Bool) (e : ImageEntry) : Rect × Bool :=
  processImage matchCV e.img e.shape (facesOf e) e.scaling

/-- The whole rectangle-generation loop: one exported rectangle and one
detection-success flag per database entry. -/
def runAll (matchCV : Bool) (entries : List ImageEntry) : List (Rect × Bool) :=
  entries.map (processEntry matchCV)

/-- Modelled from the spec: the database import / configuration validation
(`dest::io::importDatabase` is not among the sources here) rejects
zero-landmark shapes — "Configuration errors (mismatched array sizes,
zero landmarks, …): fail fast before any training work begins". The
rectangle generation runs only when every shape has at least one
landmark. -/
def importAndGenerate (matchCV : Bool) (entries : List ImageEntry) :
    Option (List (Rect × Bool)) :=
  if entries.all (fun e => decide (0 < e.shape.length)) then
    some (runAll matchCV entries)
  else
    none

end Dest

namespace Dest

/-! ## Training data manager (`training_data.h`)

The header declares the operations with their default arguments; the
implementation file is not among the sources here, so bodies are modelled
from the specification. Randomness (`std::mt19937 &rnd`) is modelled as a
deterministic stream `ℕ → ℕ` of draws. -/

/-- `TrainingData::Sample`: an image index and a shape estimate. -/
structure Sample where
  idx : ℕ
  estimate : Shape
deriving DecidableEq, Repr, Inhabited

/-- Modelled from the spec: one uniform draw over `[0, M) \ {i}` ("draw …
*other* ground-truth shapes uniformly at random (excluding self)"), taking
one raw draw `r`: reduce it modulo `M - 1` and skip over `i`. -/
def drawOther (M i r : ℕ) : ℕ :=
  let j := r % (M - 1)
  if j < i then j else j + 1

/-- Modelled from the spec: `TrainingData::createTrainingSamplesKazemi`
(its implementation file is not among the sources here) — "for each
ground-truth shape (image), draw `numInitializationsPerImage` *other*
ground-truth shapes uniformly at random (excluding self) and use each as
an initial estimate for that image … Produces `numImages ×
numInitializationsPerImage` samples." The default argument value is taken
from the declaration in `training_data.h`. -/
def createTrainingSamplesKazemi (shapes : List Shape) (rnd : ℕ → ℕ)
    (numInitializationsPerImage : ℕ := 20) : List Sample :=
  (List.range shapes.length).flatMap (fun i =>
    (List.range numInitializationsPerImage).map (fun t =>
      { idx := i,
        estimate := shapes.getD
          (drawOther shapes.length i (rnd (i * numInitializationsPerImage + t))) [] }))

/-- Scale every landmark of a shape by a scalar weight. -/
def scaleShape (c : ℚ) (s : Shape) : Shape :=
  s.map (fun p => (c * p.1, c * p.2))

/-- Pointwise sum of two shapes of equal landmark count. -/
def addShape (s t : Shape) : Shape :=
  List.zipWith (fun p q => (p.1 + q.1, p.2 + q.2)) s t

/-- Modelled from the spec: "random non-negative weights summing to 1" —
raw positive weights drawn from the stream, normalized by their sum. -/
def comboWeights (rnd : ℕ → ℕ) (base M : ℕ) : List ℚ :=
  let raw := (List.range M).map (fun j => ((rnd (base + j) % 100 + 1 : ℕ) : ℚ))
  raw.map (fun w => w / raw.sum)

/-- Weighted sum of the full set of ground-truth shapes. -/
def weightedShapeSum (ws : List ℚ) (shapes : List Shape) (numLandmarks : ℕ) : Shape :=
  (List.zip ws shapes).foldl (fun acc p => addShape acc (scaleShape p.1 p.2))
    (List.replicate numLandmarks (0, 0))

/-- Modelled from the spec:
`TrainingData::createTrainingSamplesThroughLinearCombinations` (its
implementation file is not among the sources here) — "generate initial
estimates as random convex combinations (random non-negative weights
summing to 1) of the full set of ground-truth shapes". The default
argument value is taken from the declaration in `training_data.h`. -/
def createTrainingSamplesThroughLinearCombinations (shapes : List Shape)
    (rnd : ℕ → ℕ) (numInitializationsPerImage : ℕ := 20) : List Sample :=
  (List.range shapes.length).flatMap (fun i =>
    (List.range numInitializationsPerImage).map (fun t =>
      { idx := i,
        estimate := weightedShapeSum
          (comboWeights rnd ((i * numInitializationsPerImage + t) * shapes.length)
            shapes.length)
          shapes ((shapes.headD []).length) }))

/-- One Fisher–Yates step list: swap the head with the element at a
stream-drawn index, emit it, and continue on the remainder. -/
def shuffleGo (rnd : ℕ → ℕ) : ℕ → List Sample → List Sample
  | _, [] => []
  | n, a :: t =>
    let i := rnd n % (a :: t).length
    if i = 0 then a :: shuffleGo rnd (n + 1) t
    else
      match t.get? (i - 1) with
      | some b => b :: shuffleGo rnd (n + 1) (t.set (i - 1) a)
      | none => a :: shuffleGo rnd (n + 1) t
termination_by _ l => l.length
decreasing_by all_goals simp [List.length_set]

/-- Modelled from the spec: the shuffle of
`randomPartitionTrainingSamples` ("shuffles and splits samples"),
a Fisher–Yates shuffle driven by the stream. -/
def shuffle (rnd : ℕ → ℕ) (samples : List Sample) : List Sample :=
  shuffleGo rnd 0 samples

/-- Modelled from the spec: `TrainingData::randomPartitionTrainingSamples`
(its implementation file is not among the sources here) — "shuffles and
splits samples so that `validatePercent` (default 10%) are held out",
yielding `round(N·p)` validation samples and the remaining samples for
training. The default argument value is taken from the declaration in
`training_data.h`. Returns `(train, validate)`. -/
def randomPartitionTrainingSamples (samples : List Sample) (rnd : ℕ → ℕ)
    (validatePercent : ℚ := 1 / 10) : List Sample × List Sample :=
  let shuffled := shuffle rnd samples
  let nv := (round ((samples.length : ℚ) * validatePercent)).toNat
  (shuffled.drop nv, shuffled.take nv)

/-! ## Concrete fixtures used to instantiate theorems -/

/-- The unit square as a four-corner rectangle. -/
def unitSquare : Rect := ⟨(0, 0), (1, 0), (0, 1), (1, 1)⟩

/-- A larger square rectangle. -/
def bigSquare : Rect := ⟨(0, 0), (3, 0), (0, 3), (3, 3)⟩

/-- A two-landmark shape with one landmark inside the unit square. -/
def witShape : Shape := [(1 / 2, 1 / 2), (2, 2)]

/-- A database entry whose two detectors produce one candidate each. -/
def witEntry : ImageEntry := ⟨⟨10, 20⟩, witShape, [[unitSquare], [bigSquare]], 2⟩

/-- A database entry on which every detector produced no candidate. -/
def witFallbackEntry : ImageEntry := ⟨⟨10, 20⟩, [(0, 0), (2, 3)], [], 2⟩

/-- Two one-landmark ground-truth shapes. -/
def witShapes : List Shape := [[(0, 0)], [(1, 1)]]

/-- Five training samples with empty estimates. -/
def witSamples : List Sample :=
  [⟨0, []⟩, ⟨1, []⟩, ⟨2, []⟩, ⟨3, []⟩, ⟨4, []⟩]

/-- A concrete deterministic stream of raw random draws. -/
def witStream : ℕ → ℕ := fun n => n

/-! ## Supporting lemmas -/

/-- The loop-body test counts a landmark exactly when it lies in the
closed box spanned by the two corners. -/
lemma landmarkCovered_iff (minC maxC p : Vec2) :
    landmarkCovered minC maxC p = true ↔
      minC.1 ≤ p.1 ∧ minC.2 ≤ p.2 ∧ p.1 ≤ maxC.1 ∧ p.2 ≤ maxC.2 := by
  simp only [landmarkCovered, Bool.and_eq_true, decide_eq_true_eq, sub_nonneg,
    sub_nonpos]
  tauto

/-- The overlap ratio is never negative. -/
lemma ratioRectShapeOverlap_nonneg (r : Rect) (s : Shape) :
    0 ≤ ratioRectShapeOverlap r s := by
  unfold ratioRectShapeOverlap
  positivity

/-- The overlap ratio never exceeds one. -/
lemma ratioRectShapeOverlap_le_one (r : Rect) (s : Shape) :
    ratioRectShapeOverlap r s ≤ 1 := by
  unfold ratioRectShapeOverlap
  rcases Nat.eq_zero_or_pos s.length with h | h
  · simp [h]
  · rw [div_le_one (by exact_mod_cast h)]
    exact_mod_cast List.countP_le_length _

/-- Invariant of the best-candidate selection loop: the final best overlap
dominates the initial one and every candidate's overlap, and the final
best identifier is either untouched (nothing beat the running best) or
points to the first candidate attaining the final best overlap, which
strictly beats the initial value and every earlier candidate. -/
lemma selectBestGo_spec (s : Shape) (l : List Rect) (j0 : ℕ) (bid0 : Option ℕ)
    (bo0 : ℚ) :
    bo0 ≤ (selectBestGo s l j0 bid0 bo0).2 ∧
    (∀ f ∈ l, ratioRectShapeOverlap f s ≤ (selectBestGo s l j0 bid0 bo0).2) ∧
    (((selectBestGo s l j0 bid0 bo0).1 = bid0 ∧
        (selectBestGo s l j0 bid0 bo0).2 = bo0) ∨
      ∃ k, k < l.length ∧ (selectBestGo s l j0 bid0 bo0).1 = some (j0 + k) ∧
        (selectBestGo s l j0 bid0 bo0).2 =
          ratioRectShapeOverlap (l.getD k dummyRect) s ∧
        bo0 < (selectBestGo s l j0 bid0 bo0).2 ∧
        ∀ k' < k, ratioRectShapeOverlap (l.getD k' dummyRect) s <
          (selectBestGo s l j0 bid0 bo0).2) := by
  induction l generalizing j0 bid0 bo0 with
  | nil =>
    refine ⟨le_refl _, by simp, Or.inl ⟨rfl, rfl⟩⟩
  | cons f rest ih =>
    by_cases h : bo0 < ratioRectShapeOverlap f s
    · have hgo : selectBestGo s (f :: rest) j0 bid0 bo0 =
          selectBestGo s rest (j0 + 1) (some j0) (ratioRectShapeOverlap f s) := by
        simp [selectBestGo, h]
      obtain ⟨iha, ihb, ihc⟩ := ih (j0 + 1) (some j0) (ratioRectShapeOverlap f s)
      rw [hgo]
      refine ⟨le_of_lt (lt_of_lt_of_le h iha), ?_, ?_⟩
      · intro f' hf'
        rcases List.mem_cons.mp hf' with hf' | hf'
        · exact hf' ▸ iha
        · exact ihb f' hf'
      · rcases ihc with ⟨h1, h2⟩ | ⟨k, hk, h1, h2, h3, h4⟩
        · refine Or.inr ⟨0, by simp, ?_, ?_, ?_, ?_⟩
          · simpa using h1
          · simpa using h2
          · rw [h2]; exact h
          · intro k' hk'; omega
        · refine Or.inr ⟨k + 1, by simpa using hk, ?_, ?_, ?_, ?_⟩
          · rw [h1]; ring_nf
          · simpa [List.getD_cons_succ] using h2
          · exact lt_trans h h3
          · intro k' hk'
            match k' with
            | 0 => simpa [List.getD_cons_zero] using h3
            | Nat.succ m =>
              rw [List.getD_cons_succ]
              exact h4 m (by omega)
    · have hgo : selectBestGo s (f :: rest) j0 bid0 bo0 =
          selectBestGo s rest (j0 + 1) bid0 bo0 := by
        simp [selectBestGo, h]
      obtain ⟨iha, ihb, ihc⟩ := ih (j0 + 1) bid0 bo0
      rw [hgo]
      refine ⟨iha, ?_, ?_⟩
      · intro f' hf'
        rcases List.mem_cons.mp hf' with hf' | hf'
        · exact hf' ▸ le_trans (not_lt.mp h) iha
        · exact ihb f' hf'
      · rcases ihc with ⟨h1, h2⟩ | ⟨k, hk, h1, h2, h3, h4⟩
        · exact Or.inl ⟨h1, h2⟩
        · refine Or.inr ⟨k + 1, by simpa using hk, ?_, ?_, h3, ?_⟩
          · rw [h1]; ring_nf
          · simpa [List.getD_cons_succ] using h2
          · intro k' hk'
            match k' with
            | 0 =>
              rw [List.getD_cons_zero]
              exact lt_of_le_of_lt (not_lt.mp h) h3
            | Nat.succ m =>
              rw [List.getD_cons_succ]
              exact h4 m (by omega)

/-- The final best overlap is an upper bound on every candidate's overlap. -/
lemma selectBest_ub (faces : List Rect) (s : Shape) :
    ∀ f ∈ faces, ratioRectShapeOverlap f s ≤ (selectBest faces s).2 :=
  (selectBestGo_spec s faces 0 none 0).2.1

/-- The final best overlap is nonnegative. -/
lemma selectBest_snd_nonneg (faces : List Rect) (s : Shape) :
    0 ≤ (selectBest faces s).2 :=
  (selectBestGo_spec s faces 0 none 0).1

/-- The best identifier stays unset exactly when no candidate has a
strictly positive overlap with the shape. -/
lemma selectBest_none_iff (faces : List Rect) (s : Shape) :
    (selectBest faces s).1 = none ↔
      ∀ f ∈ faces, ratioRectShapeOverlap f s ≤ 0 := by
  obtain ⟨ha, hb, hc⟩ := selectBestGo_spec s faces 0 none 0
  simp only [selectBest]
  constructor
  · intro hn
    rcases hc with ⟨h1, h2⟩ | ⟨k, hk, h1, h2, h3, h4⟩
    · intro f hf
      have hle := hb f hf
      rw [h2] at hle
      exact hle
    · rw [h1] at hn
      exact absurd hn (by simp)
  · intro hall
    rcases hc with ⟨h1, _⟩ | ⟨k, hk, h1, h2, h3, h4⟩
    · exact h1
    · have hmem : faces.getD k dummyRect ∈ faces := by
        rw [List.getD_eq_getElem faces dummyRect hk]
        exact List.getElem_mem hk
      have hle := hall _ hmem
      rw [← h2] at hle
      exact absurd h3 (not_lt.mpr hle)

/-- When some candidate has strictly positive overlap, the best
identifier is set. -/
lemma selectBest_isSome (faces : List Rect) (s : Shape)
    (hpos : ∃ f ∈ faces, 0 < ratioRectShapeOverlap f s) :
    ∃ j, (selectBest faces s).1 = some j := by
  rcases hsel : (selectBest faces s).1 with _ | j
  · obtain ⟨f, hf, hlt⟩ := hpos
    have := (selectBest_none_iff faces s).mp hsel f hf
    exact absurd hlt (not_lt.mpr this)
  · exact ⟨j, rfl⟩

/-- When the best identifier is set it indexes a candidate whose overlap
is the final best overlap, strictly positive, dominating all candidates,
and strictly dominating all earlier candidates. -/
lemma selectBest_some (faces : List Rect) (s : Shape) (j : ℕ)
    (hj : (selectBest faces s).1 = some j) :
    j < faces.length ∧
    (selectBest faces s).2 = ratioRectShapeOverlap (faces.getD j dummyRect) s ∧
    0 < (selectBest faces s).2 ∧
    (∀ f ∈ faces, ratioRectShapeOverlap f s ≤ (selectBest faces s).2) ∧
    ∀ k' < j, ratioRectShapeOverlap (faces.getD k' dummyRect) s <
      (selectBest faces s).2 := by
  obtain ⟨ha, hb, hc⟩ := selectBestGo_spec s faces 0 none 0
  simp only [selectBest] at hj ⊢
  rcases hc with ⟨h1, _⟩ | ⟨k, hk, h1, h2, h3, h4⟩
  · rw [h1] at hj; exact absurd hj (by simp)
  · rw [h1] at hj
    have hkj : k = j := by simpa using hj
    subst hkj
    exact ⟨hk, h2, h3, hb, h4⟩

/-- The per-image computation takes the fallback branch exactly as its
`if` condition states. -/
lemma processImage_fallback (m : Bool) (img : ImageDims) (shape : Shape)
    (faces : List Rect) (scaling : ℚ)
    (hcond : (selectBest faces shape).1 = none ∨
      (selectBest faces shape).2 < acceptThreshold) :
    processImage m img shape faces scaling =
      (divRect (if m then mapRect (applyCVTransform img) (shapeBounds shape)
        else shapeBounds shape) scaling, false) := by
  simp only [processImage]
  rw [if_pos hcond]

/-- When the fallback condition fails, the detected candidate is exported
and the success flag is set. -/
lemma processImage_success (m : Bool) (img : ImageDims) (shape : Shape)
    (faces : List Rect) (scaling : ℚ)
    (hcond : ¬((selectBest faces shape).1 = none ∨
      (selectBest faces shape).2 < acceptThreshold)) :
    ∃ j, (selectBest faces shape).1 = some j ∧
      processImage m img shape faces scaling =
        (divRect (faces.getD j dummyRect) scaling, true) := by
  rcases hsel : (selectBest faces shape).1 with _ | j
  · exact absurd (Or.inl hsel) hcond
  · refine ⟨j, rfl, ?_⟩
    simp only [processImage]
    rw [if_neg hcond, hsel]

/-- With at least two shapes and a valid own index, a drawn index is a
valid shape index. -/
lemma drawOther_lt (M i r : ℕ) (h2 : 2 ≤ M) (hi : i < M) : drawOther M i r < M := by
  have hm : r % (M - 1) < M - 1 := Nat.mod_lt _ (by omega)
  simp only [drawOther]
  split <;> omega

/-- With at least two shapes, a drawn index never equals the own index. -/
lemma drawOther_ne (M i r : ℕ) (h2 : 2 ≤ M) : drawOther M i r ≠ i := by
  have hm : r % (M - 1) < M - 1 := Nat.mod_lt _ (by omega)
  simp only [drawOther]
  split <;> omega

/-- The Fisher–Yates pass preserves the number of samples. -/
lemma length_shuffleGo (rnd : ℕ → ℕ) :
    ∀ (N n : ℕ) (l : List Sample), l.length ≤ N →
      (shuffleGo rnd n l).length = l.length := by
  intro N
  induction N with
  | zero =>
    intro n l h
    have : l = [] := List.eq_nil_of_length_eq_zero (Nat.le_zero.mp h)
    subst this
    simp [shuffleGo]
  | succ N ih =>
    intro n l h
    match l with
    | [] => simp [shuffleGo]
    | a :: t =>
      have ht : t.length ≤ N := by simpa using Nat.le_of_succ_le_succ h
      rw [shuffleGo]
      by_cases h0 : rnd n % (t.length + 1) = 0
      · simp only [List.length_cons, h0, if_true, reduceIte]
        rw [ih (n + 1) t ht]
      · simp only [List.length_cons, if_neg h0]
        rcases hg : t.get? (rnd n % (t.length + 1) - 1) with _ | b
        · show (a :: shuffleGo rnd (n + 1) t).length = t.length + 1
          rw [List.length_cons, ih (n + 1) t ht]
        · show (b :: shuffleGo rnd (n + 1)
            (t.set (rnd n % (t.length + 1) - 1) a)).length = t.length + 1
          rw [List.length_cons, ih (n + 1) _ (by simpa [List.length_set] using ht),
            List.length_set]

/-- The shuffle preserves the number of samples. -/
lemma length_shuffle (rnd : ℕ → ℕ) (l : List Sample) :
    (shuffle rnd l).length = l.length :=
  length_shuffleGo rnd l.length 0 l (le_refl _)

/-- Rounding a tenth of a count never exceeds the count. -/
lemma round_tenth_le (N : ℕ) : (round ((N : ℚ) * (1 / 10))).toNat ≤ N := by
  rw [Int.toNat_le]
  have h0 : ((N : ℚ)) * (1 / 10) ≤ (N : ℚ) := by
    rw [mul_one_div]
    exact div_le_self (by positivity) (by norm_num)
  have h1 : ((N : ℚ)) * (1 / 10) + 1 / 2 ≤ (N : ℚ) + 1 / 2 := by linarith
  calc round ((N : ℚ) * (1 / 10)) = ⌊(N : ℚ) * (1 / 10) + 1 / 2⌋ := round_eq _
    _ ≤ ⌊(N : ℚ) + 1 / 2⌋ := Int.floor_le_floor h1
    _ = (N : ℤ) := by
      rw [Int.floor_eq_iff]
      constructor
      · push_cast; linarith
      · push_cast; linarith

/-- The success flag is cleared exactly when the fallback condition of
the per-image `if` holds. -/
lemma processImage_snd_false_iff (m : Bool) (img : ImageDims) (shape : Shape)
    (faces : List Rect) (scaling : ℚ) :
    (processImage m img shape faces scaling).2 = false ↔
      ((selectBest faces shape).1 = none ∨
        (selectBest faces shape).2 < acceptThreshold) := by
  by_cases hcond : (selectBest faces shape).1 = none ∨
      (selectBest faces shape).2 < acceptThreshold
  · rw [processImage_fallback m img shape faces scaling hcond]
    simpa using hcond
  · obtain ⟨j, _, heq⟩ := processImage_success m img shape faces scaling hcond
    rw [heq]
    simpa using hcond

/-! ## Claims -/

/-- C1: for every rectangle (corner columns 0 and 3 being the min and max
corners) and every shape with at least one landmark,
`ratioRectShapeOverlap(r, s)` equals the number of landmarks lying
componentwise between the two corners (boundaries included) divided by
the total landmark count, and the result lies in `[0, 1]`. -/
theorem ratioRectShapeOverlap_counts_covered (r : Rect) (s : Shape) (h : s ≠ []) :
    ratioRectShapeOverlap r s =
      ((s.countP (fun p => decide (r.c0.1 ≤ p.1 ∧ r.c0.2 ≤ p.2 ∧
        p.1 ≤ r.c3.1 ∧ p.2 ≤ r.c3.2)) : ℚ)) / ((s.length : ℚ)) ∧
    0 ≤ ratioRectShapeOverlap r s ∧ ratioRectShapeOverlap r s ≤ 1 := by
  refine ⟨?_, ratioRectShapeOverlap_nonneg r s, ratioRectShapeOverlap_le_one r s⟩
  unfold ratioRectShapeOverlap
  have hcount : s.countP (landmarkCovered r.c0 r.c3) =
      s.countP (fun p => decide (r.c0.1 ≤ p.1 ∧ r.c0.2 ≤ p.2 ∧
        p.1 ≤ r.c3.1 ∧ p.2 ≤ r.c3.2)) := by
    apply List.countP_congr
    intro p _
    rw [landmarkCovered_iff]
    simp
  rw [hcount]

/-- Witness instantiating C1 on a concrete rectangle and shape. -/
theorem ratioRectShapeOverlap_counts_covered_witness :
    witShape ≠ [] ∧
    (ratioRectShapeOverlap unitSquare witShape =
      ((witShape.countP (fun p => decide (unitSquare.c0.1 ≤ p.1 ∧
        unitSquare.c0.2 ≤ p.2 ∧ p.1 ≤ unitSquare.c3.1 ∧
        p.2 ≤ unitSquare.c3.2)) : ℚ)) / ((witShape.length : ℚ)) ∧
    0 ≤ ratioRectShapeOverlap unitSquare witShape ∧
    ratioRectShapeOverlap unitSquare witShape ≤ 1) :=
  ⟨by decide, ratioRectShapeOverlap_counts_covered unitSquare witShape (by decide)⟩

/-- C2: the tool exports a rectangle derived from the tight shape bounds
exactly when no detector candidate has overlap ratio strictly greater
than zero or the best candidate's overlap ratio is strictly below the
acceptance threshold `0.3`; otherwise it exports the detected candidate
rectangle. -/
theorem fallback_decision (m : Bool) (e : ImageEntry) :
    ((processEntry m e).2 = false ↔
      (∀ f ∈ facesOf e, ¬ 0 < ratioRectShapeOverlap f e.shape) ∨
        (selectBest (facesOf e) e.shape).2 < acceptThreshold) ∧
    ((processEntry m e).2 = false →
      (processEntry m e).1 = divRect
        (if m then mapRect (applyCVTransform e.img) (shapeBounds e.shape)
          else shapeBounds e.shape) e.scaling) ∧
    ((processEntry m e).2 = true →
      ∃ j, (selectBest (facesOf e) e.shape).1 = some j ∧
        (processEntry m e).1 = divRect ((facesOf e).getD j dummyRect) e.scaling) := by
  refine ⟨?_, ?_, ?_⟩
  · simp only [processEntry]
    rw [processImage_snd_false_iff, selectBest_none_iff]
    simp only [not_lt]
  · intro hf
    simp only [processEntry] at hf ⊢
    have hcond := (processImage_snd_false_iff m e.img e.shape (facesOf e)
      e.scaling).mp hf
    rw [processImage_fallback m e.img e.shape (facesOf e) e.scaling hcond]
  · intro ht
    simp only [processEntry] at ht ⊢
    by_cases hcond : (selectBest (facesOf e) e.shape).1 = none ∨
        (selectBest (facesOf e) e.shape).2 < acceptThreshold
    · rw [processImage_fallback m e.img e.shape (facesOf e) e.scaling hcond] at ht
      exact absurd ht (by simp)
    · obtain ⟨j, hsel, heq⟩ := processImage_success m e.img e.shape (facesOf e)
        e.scaling hcond
      exact ⟨j, hsel, by rw [heq]⟩

/-- Witness instantiating C2 on an entry with no detector candidates:
the fallback branch is taken and the shape-bounds rectangle exported. -/
theorem fallback_decision_witness :
    (processEntry true witFallbackEntry).2 = false ∧
    (processEntry true witFallbackEntry).1 = divRect
      (if true then mapRect (applyCVTransform witFallbackEntry.img)
          (shapeBounds witFallbackEntry.shape)
        else shapeBounds witFallbackEntry.shape) witFallbackEntry.scaling :=
  ⟨by decide, (fallback_decision true witFallbackEntry).2.1 (by decide)⟩

/-- C3: whenever the fallback branch is taken with the match-OpenCV
option enabled, the exported rectangle is the tight shape-bounds
rectangle with each corner scaled by `1.25` and translated by
`(-0.01 · width, -0.05 · height)`, then divided by the image's scaling
factor. -/
theorem fallback_matchCV_transform (img : ImageDims) (shape : Shape)
    (faces : List Rect) (scaling : ℚ)
    (hfb : (processImage true img shape faces scaling).2 = false) :
    (processImage true img shape faces scaling).1 =
      divRect (mapRect (fun p =>
        ((5 / 4 : ℚ) * p.1 + (-1 / 100 : ℚ) * img.cols,
          (5 / 4 : ℚ) * p.2 + (-5 / 100 : ℚ) * img.rows)) (shapeBounds shape))
        scaling := by
  have hcond := (processImage_snd_false_iff true img shape faces scaling).mp hfb
  rw [processImage_fallback true img shape faces scaling hcond]
  rfl

/-- Witness instantiating C3 on an entry with no detector candidates. -/
theorem fallback_matchCV_transform_witness :
    (processImage true ⟨10, 20⟩ [((0 : ℚ), (0 : ℚ)), (2, 3)] [] 2).2 = false ∧
    (processImage true ⟨10, 20⟩ [((0 : ℚ), (0 : ℚ)), (2, 3)] [] 2).1 =
      divRect (mapRect (fun p =>
        ((5 / 4 : ℚ) * p.1 + (-1 / 100 : ℚ) * (ImageDims.mk 10 20).cols,
          (5 / 4 : ℚ) * p.2 + (-5 / 100 : ℚ) * (ImageDims.mk 10 20).rows))
        (shapeBounds [((0 : ℚ), (0 : ℚ)), (2, 3)])) 2 :=
  ⟨by decide,
    fallback_matchCV_transform ⟨10, 20⟩ [((0 : ℚ), (0 : ℚ)), (2, 3)] [] 2 (by decide)⟩

/-- C4: when at least one detector candidate has positive overlap, the
selected candidate exists, attains the maximum overlap over all
candidates of all detectors, strictly beats every earlier candidate (so
ties keep the earliest in detector order), and its overlap is at least
the acceptance threshold whenever it is exported. -/
theorem selected_candidate_maximal (m : Bool) (e : ImageEntry)
    (hpos : ∃ f ∈ facesOf e, 0 < ratioRectShapeOverlap f e.shape) :
    ∃ j, (selectBest (facesOf e) e.shape).1 = some j ∧ j < (facesOf e).length ∧
      (selectBest (facesOf e) e.shape).2 =
        ratioRectShapeOverlap ((facesOf e).getD j dummyRect) e.shape ∧
      (∀ f ∈ facesOf e, ratioRectShapeOverlap f e.shape ≤
        ratioRectShapeOverlap ((facesOf e).getD j dummyRect) e.shape) ∧
      (∀ k < j, ratioRectShapeOverlap ((facesOf e).getD k dummyRect) e.shape <
        ratioRectShapeOverlap ((facesOf e).getD j dummyRect) e.shape) ∧
      ((processEntry m e).2 = true →
        acceptThreshold ≤
          ratioRectShapeOverlap ((facesOf e).getD j dummyRect) e.shape) := by
  obtain ⟨j, hj⟩ := selectBest_isSome _ _ hpos
  obtain ⟨hlt, heq, hposb, hub, hearlier⟩ := selectBest_some _ _ j hj
  refine ⟨j, hj, hlt, heq, ?_, ?_, ?_⟩
  · intro f hf
    rw [← heq]
    exact hub f hf
  · intro k hk
    rw [← heq]
    exact hearlier k hk
  · intro ht
    by_cases hcond : (selectBest (facesOf e) e.shape).1 = none ∨
        (selectBest (facesOf e) e.shape).2 < acceptThreshold
    · simp only [processEntry] at ht
      rw [processImage_fallback m e.img e.shape (facesOf e) e.scaling hcond] at ht
      exact absurd ht (by simp)
    · push_neg at hcond
      rw [← heq]
      exact hcond.2

/-- Witness instantiating C4 on an entry with two detector candidates. -/
theorem selected_candidate_maximal_witness :
    (∃ f ∈ facesOf witEntry, 0 < ratioRectShapeOverlap f witEntry.shape) ∧
    (∃ j, (selectBest (facesOf witEntry) witEntry.shape).1 = some j ∧
      j < (facesOf witEntry).length ∧
      (selectBest (facesOf witEntry) witEntry.shape).2 =
        ratioRectShapeOverlap ((facesOf witEntry).getD j dummyRect)
          witEntry.shape ∧
      (∀ f ∈ facesOf witEntry, ratioRectShapeOverlap f witEntry.shape ≤
        ratioRectShapeOverlap ((facesOf witEntry).getD j dummyRect)
          witEntry.shape) ∧
      (∀ k < j, ratioRectShapeOverlap ((facesOf witEntry).getD k dummyRect)
          witEntry.shape <
        ratioRectShapeOverlap ((facesOf witEntry).getD j dummyRect)
          witEntry.shape) ∧
      ((processEntry false witEntry).2 = true →
        acceptThreshold ≤
          ratioRectShapeOverlap ((facesOf witEntry).getD j dummyRect)
            witEntry.shape)) := by
  have hpos : ∃ f ∈ facesOf witEntry, 0 < ratioRectShapeOverlap f witEntry.shape := by
    refine ⟨unitSquare, by simp [facesOf, witEntry], ?_⟩
    norm_num [ratioRectShapeOverlap, witEntry, witShape, unitSquare,
      landmarkCovered, List.countP_cons, List.countP_nil]
  exact ⟨hpos, selected_candidate_maximal false witEntry hpos⟩

/-- C5: the rectangle generation runs only after the configuration
validation has rejected zero-landmark shapes, so every shape reaching
`ratioRectShapeOverlap` has a positive landmark count and the division by
the landmark count is never evaluated with a zero denominator. -/
theorem zero_landmark_guard (m : Bool) (entries : List ImageEntry)
    (out : List (Rect × Bool)) (h : importAndGenerate m entries = some out) :
    ∀ e ∈ entries, 0 < e.shape.length ∧ ((e.shape.length : ℚ)) ≠ 0 := by
  intro e he
  unfold importAndGenerate at h
  by_cases hall : entries.all (fun e => decide (0 < e.shape.length)) = true
  · have hp : 0 < e.shape.length := by
      simpa using List.all_eq_true.mp hall e he
    refine ⟨hp, ?_⟩
    exact_mod_cast Nat.pos_iff_ne_zero.mp hp
  · rw [if_neg (by simpa using hall)] at h
    exact absurd h (by simp)

/-- Witness instantiating C5 on a singleton database that passes the
validation. -/
theorem zero_landmark_guard_witness :
    importAndGenerate false [witEntry] = some (runAll false [witEntry]) ∧
    ∀ e ∈ [witEntry], 0 < e.shape.length ∧ ((e.shape.length : ℚ)) ≠ 0 :=
  ⟨rfl, zero_landmark_guard false [witEntry] (runAll false [witEntry]) rfl⟩

/-- C6: the rectangle-generation computation is deterministic — two runs
on identical inputs produce identical per-image overlap ratios, identical
accept-versus-fallback decisions, and identical exported rectangles. -/
theorem rect_generation_deterministic (m₁ m₂ : Bool)
    (es₁ es₂ : List ImageEntry) (hm : m₁ = m₂) (he : es₁ = es₂) :
    (es₁.map (fun e => (facesOf e).map
        (fun f => ratioRectShapeOverlap f e.shape)) =
      es₂.map (fun e => (facesOf e).map
        (fun f => ratioRectShapeOverlap f e.shape))) ∧
    ((runAll m₁ es₁).map Prod.snd = (runAll m₂ es₂).map Prod.snd) ∧
    runAll m₁ es₁ = runAll m₂ es₂ := by
  subst hm
  subst he
  exact ⟨rfl, rfl, rfl⟩

/-- Witness instantiating C6 on two identical singleton runs. -/
theorem rect_generation_deterministic_witness :
    (([witEntry] : List ImageEntry).map (fun e => (facesOf e).map
        (fun f => ratioRectShapeOverlap f e.shape)) =
      ([witEntry] : List ImageEntry).map (fun e => (facesOf e).map
        (fun f => ratioRectShapeOverlap f e.shape))) ∧
    ((runAll false [witEntry]).map Prod.snd =
      (runAll false [witEntry]).map Prod.snd) ∧
    runAll false [witEntry] = runAll false [witEntry] :=
  rect_generation_deterministic false false [witEntry] [witEntry] rfl rfl

/-- C7: with at least two ground-truth shapes,
`createTrainingSamplesKazemi` with `numInitializationsPerImage = k` on
`M` shapes produces exactly `M * k` samples, each with a valid image
index in `[0, M)` and an initial estimate equal to a ground-truth shape
other than the sample's own image's shape. -/
theorem createTrainingSamplesKazemi_spec (shapes : List Shape) (rnd : ℕ → ℕ)
    (k : ℕ) (h2 : 2 ≤ shapes.length) :
    (createTrainingSamplesKazemi shapes rnd k).length = shapes.length * k ∧
    ∀ smp ∈ createTrainingSamplesKazemi shapes rnd k,
      smp.idx < shapes.length ∧
      ∃ j, j < shapes.length ∧ j ≠ smp.idx ∧ smp.estimate = shapes.getD j [] := by
  constructor
  · rw [createTrainingSamplesKazemi, List.length_flatMap]
    have hmap : List.map (List.length ∘ fun i => (List.range k).map (fun t =>
        ({ idx := i, estimate := shapes.getD (drawOther shapes.length i
          (rnd (i * k + t))) [] } : Sample))) (List.range shapes.length) =
        List.map (fun _ => k) (List.range shapes.length) := by
      apply List.map_congr_left
      intro i _
      simp
    rw [hmap, List.map_const', List.sum_replicate, smul_eq_mul, List.length_range]
  · intro smp hmem
    simp only [createTrainingSamplesKazemi, List.mem_flatMap, List.mem_map,
      List.mem_range] at hmem
    obtain ⟨i, hi, t, ht, rfl⟩ := hmem
    refine ⟨hi, drawOther shapes.length i (rnd (i * k + t)),
      drawOther_lt _ _ _ h2 hi, drawOther_ne _ _ _ h2, rfl⟩

/-- Witness instantiating C7 on two shapes and one initialization. -/
theorem createTrainingSamplesKazemi_spec_witness :
    2 ≤ witShapes.length ∧
    ((createTrainingSamplesKazemi witShapes witStream 1).length =
      witShapes.length * 1 ∧
    ∀ smp ∈ createTrainingSamplesKazemi witShapes witStream 1,
      smp.idx < witShapes.length ∧
      ∃ j, j < witShapes.length ∧ j ≠ smp.idx ∧
        smp.estimate = witShapes.getD j []) :=
  ⟨by decide, createTrainingSamplesKazemi_spec witShapes witStream 1 (by decide)⟩

/-- C8: the `validatePercent` parameter of
`randomPartitionTrainingSamples` defaults to `0.1`: a call without the
argument equals a call with `1/10`, and holds out `round(N / 10)` of the
`N` samples for validation. -/
theorem randomPartitionTrainingSamples_default_spec (samples : List Sample)
    (rnd : ℕ → ℕ) :
    randomPartitionTrainingSamples samples rnd =
      randomPartitionTrainingSamples samples rnd (1 / 10) ∧
    (randomPartitionTrainingSamples samples rnd).2.length =
      (round ((samples.length : ℚ) * (1 / 10))).toNat := by
  refine ⟨rfl, ?_⟩
  simp only [randomPartitionTrainingSamples]
  rw [List.length_take, length_shuffle]
  exact min_eq_left (round_tenth_le samples.length)

/-- Witness instantiating C8 on five concrete samples. -/
theorem randomPartitionTrainingSamples_default_spec_witness :
    randomPartitionTrainingSamples witSamples witStream =
      randomPartitionTrainingSamples witSamples witStream (1 / 10) ∧
    (randomPartitionTrainingSamples witSamples witStream).2.length =
      (round ((witSamples.length : ℚ) * (1 / 10))).toNat :=
  randomPartitionTrainingSamples_default_spec witSamples witStream

/-- C9: both sample-generation strategies default their
`numInitializationsPerImage` parameter to `20`. -/
theorem sample_strategies_default_twenty (shapes : List Shape) (rnd : ℕ → ℕ) :
    createTrainingSamplesKazemi shapes rnd =
      createTrainingSamplesKazemi shapes rnd 20 ∧
    createTrainingSamplesThroughLinearCombinations shapes rnd =
      createTrainingSamplesThroughLinearCombinations shapes rnd 20 :=
  ⟨rfl, rfl⟩

/-- Witness instantiating C9 on two concrete shapes. -/
theorem sample_strategies_default_twenty_witness :
    createTrainingSamplesKazemi witShapes witStream =
      createTrainingSamplesKazemi witShapes witStream 20 ∧
    createTrainingSamplesThroughLinearCombinations witShapes witStream =
      createTrainingSamplesThroughLinearCombinations witShapes witStream 20 :=
  sample_strategies_default_twenty witShapes witStream

/-- C10: every exported rectangle — from the (optionally CV-matched)
shape-bounds fallback or from an accepted detector candidate — is the
division of a pre-scaling rectangle by that image's scaling factor. -/
theorem exported_rect_descaled (m : Bool) (e : ImageEntry) :
    ∃ r0 : Rect, (processEntry m e).1 = divRect r0 e.scaling ∧
      (r0 = (if m then mapRect (applyCVTransform e.img) (shapeBounds e.shape)
          else shapeBounds e.shape) ∨
        ∃ j, j < (facesOf e).length ∧
          (selectBest (facesOf e) e.shape).1 = some j ∧
          r0 = (facesOf e).getD j dummyRect) := by
  simp only [processEntry]
  by_cases hcond : (selectBest (facesOf e) e.shape).1 = none ∨
      (selectBest (facesOf e) e.shape).2 < acceptThreshold
  · rw [processImage_fallback m e.img e.shape (facesOf e) e.scaling hcond]
    exact ⟨_, rfl, Or.inl rfl⟩
  · obtain ⟨j, hsel, heq⟩ := processImage_success m e.img e.shape (facesOf e)
      e.scaling hcond
    have hlt := (selectBest_some _ _ j hsel).1
    exact ⟨_, by rw [heq], Or.inr ⟨j, hlt, hsel, rfl⟩⟩

/-- Witness instantiating C10 on an entry with two detector candidates. -/
theorem exported_rect_descaled_witness :
    ∃ r0 : Rect, (processEntry false witEntry).1 = divRect r0 witEntry.scaling ∧
      (r0 = (if false then mapRect (applyCVTransform witEntry.img)
            (shapeBounds witEntry.shape)
          else shapeBounds witEntry.shape) ∨
        ∃ j, j < (facesOf witEntry).length ∧
          (selectBest (facesOf witEntry) witEntry.shape).1 = some j ∧
          r0 = (facesOf witEntry).getD j dummyRect) :=
  exported_rect_descaled false witEntry

end Dest
